import Mathlib

/-!
Verification of the ASTra analysis engine: a shallow embedding of the
tree traverser (src/backend/src/parsers/ast-traverser.ts), the three
analyzers (security, complexity, code quality), the analyzer coordinator
and the project-metrics aggregation, together with proofs about the
documented behaviour of each component.

Conventions of the embedding:
* TypeScript AST nodes are property bags; they are embedded as a tagged
  node carrying the kind string, the optional source span and range, the
  optional literal value, the string-valued attributes (name, operator),
  the optional comment attachments, and the object-valued properties in
  declaration order.
* JavaScript numbers are embedded as rationals; all numeric values that
  the analyzers manipulate are exact small quantities.
* Mutable visitor callbacks are embedded as state-passing functions; a
  callback returns its new state together with a flag recording whether
  the callback returned the literal value false.
* Thrown exceptions are embedded with Except.
-/

namespace ASTra

/-- Source position, from the shared SourceLocation type. -/
structure SourceLocation where
  line : Nat
  column : Nat
deriving DecidableEq, Repr

/-- Source span, from the shared SourceRange type. The TypeScript field
named end is called stop here because end is a Lean keyword. -/
structure SourceRange where
  start : SourceLocation
  stop : SourceLocation
deriving DecidableEq, Repr

/-- Value payload of a literal node. vtemplate embeds the value object
of a template element, which carries raw and cooked strings. -/
inductive JSVal where
  | vstr (s : String)
  | vnum (q : ℚ)
  | vtemplate (raw cooked : String)
deriving DecidableEq, Repr

mutual
/-- Embedded AST node (the ASTNode contract of base-parser.ts): a kind
tag, an optional source span and range, an optional literal value,
optional comment attachments (the text of each attached comment),
string-valued attributes such as name and operator, and the
object-valued properties in declaration order. -/
inductive ASTNode where
  | mk (ntype : String)
       (loc : Option SourceRange)
       (range : Option (Nat × Nat))
       (value : Option JSVal)
       (leadingComments : Option (List String))
       (trailingComments : Option (List String))
       (strs : List (String × String))
       (props : List Field)

/-- An object-valued property of a node: either a single child node or
an ordered array of child nodes. -/
inductive Field where
  | one (name : String) (child : ASTNode)
  | many (name : String) (children : List ASTNode)
end

def ASTNode.ntype : ASTNode → String
  | .mk t _ _ _ _ _ _ _ => t

def ASTNode.loc : ASTNode → Option SourceRange
  | .mk _ l _ _ _ _ _ _ => l

def ASTNode.range : ASTNode → Option (Nat × Nat)
  | .mk _ _ r _ _ _ _ _ => r

def ASTNode.value : ASTNode → Option JSVal
  | .mk _ _ _ v _ _ _ _ => v

def ASTNode.leadingComments : ASTNode → Option (List String)
  | .mk _ _ _ _ lc _ _ _ => lc

def ASTNode.trailingComments : ASTNode → Option (List String)
  | .mk _ _ _ _ _ tc _ _ => tc

def ASTNode.strs : ASTNode → List (String × String)
  | .mk _ _ _ _ _ _ ss _ => ss

def ASTNode.props : ASTNode → List Field
  | .mk _ _ _ _ _ _ _ ps => ps

@[simp]
theorem ASTNode.ntype_mk (t loc range value lc tc strs props) :
    (ASTNode.mk t loc range value lc tc strs props).ntype = t := rfl

@[simp]
theorem ASTNode.loc_mk (t loc range value lc tc strs props) :
    (ASTNode.mk t loc range value lc tc strs props).loc = loc := rfl

@[simp]
theorem ASTNode.range_mk (t loc range value lc tc strs props) :
    (ASTNode.mk t loc range value lc tc strs props).range = range := rfl

@[simp]
theorem ASTNode.value_mk (t loc range value lc tc strs props) :
    (ASTNode.mk t loc range value lc tc strs props).value = value := rfl

@[simp]
theorem ASTNode.leadingComments_mk (t loc range value lc tc strs props) :
    (ASTNode.mk t loc range value lc tc strs props).leadingComments = lc := rfl

@[simp]
theorem ASTNode.trailingComments_mk (t loc range value lc tc strs props) :
    (ASTNode.mk t loc range value lc tc strs props).trailingComments = tc := rfl

@[simp]
theorem ASTNode.strs_mk (t loc range value lc tc strs props) :
    (ASTNode.mk t loc range value lc tc strs props).strs = strs := rfl

@[simp]
theorem ASTNode.props_mk (t loc range value lc tc strs props) :
    (ASTNode.mk t loc range value lc tc strs props).props = props := rfl

/-- Access a string-valued attribute of the node (node.name,
node.operator, ...); absent attributes read as undefined. -/
def ASTNode.getStr (n : ASTNode) (key : String) : Option String :=
  n.strs.lookup key

/-- Access a single-node property (node.callee, node.left, ...). -/
def ASTNode.getOne (n : ASTNode) (key : String) : Option ASTNode :=
  n.props.findSome? fun f =>
    match f with
    | .one name c => if name = key then some c else none
    | .many _ _ => none

/-- Access a node-array property (node.arguments, node.body, ...). -/
def ASTNode.getMany (n : ASTNode) (key : String) : Option (List ASTNode) :=
  n.props.findSome? fun f =>
    match f with
    | .one _ _ => none
    | .many name cs => if name = key then some cs else none

/-- Visitor callback (VisitorFunction of ast-traverser.ts): it receives
the node, its parent and the path, and computes the next mutable state.
The Bool component records whether the callback returned the literal
value false (the subtree-skip signal); a callback that returns
undefined or anything else yields false here. -/
def VisitorFn (σ : Type) := ASTNode → Option ASTNode → List String → σ → σ × Bool

/-- A visitor map entry: either a bare function or an object with
optional enter and exit hooks. -/
inductive VisitorEntry (σ : Type) where
  | fn (f : VisitorFn σ)
  | hooks (enterFn : Option (VisitorFn σ)) (exitFn : Option (VisitorFn σ))

/-- The visitor map of ast-traverser.ts: a lookup from node kind to an
entry, plus the entry stored under the wildcard key. -/
structure Visitor (σ : Type) where
  entries : String → Option (VisitorEntry σ)
  wildcard : Option (VisitorEntry σ)

/-- The ignoreKeys set of ASTTraverser.traverseChildren. -/
def ignoreKeys : List String :=
  ["loc", "range", "start", "end", "type", "comments", "leadingComments",
   "trailingComments", "innerComments", "extra", "tokens"]

mutual
/-- ASTTraverser.traverse. Calls the enter callback (bare function or
enter hook), then the wildcard callback when the wildcard entry is a
bare function, then descends into the children unless the enter
callback returned false, and finally calls the exit hook when the
entry is in object form. -/
def traverse {σ : Type} (v : Visitor σ) :
    ASTNode → Option ASTNode → List String → σ → σ
  | .mk t loc range value lc tc strs props, parent, path, s =>
    let n := ASTNode.mk t loc range value lc tc strs props
    let currentPath := path ++ [t]
    let entry := v.entries t
    let es : σ × Bool :=
      match entry with
      | some (.fn f) => f n parent currentPath s
      | some (.hooks (some ef) _) => ef n parent currentPath s
      | _ => (s, false)
    let s2 : σ :=
      match v.wildcard with
      | some (.fn f) => (f n parent currentPath es.1).1
      | _ => es.1
    let s3 := if es.2 then s2 else traverseChildren v n props currentPath s2
    match entry with
    | some (.hooks _ (some xf)) => (xf n parent currentPath s3).1
    | _ => s3

/-- ASTTraverser.traverseChildren: iterate the object-valued properties
in order, skipping the ignoreKeys names, descending into single nodes
and into node arrays; a child whose kind tag is the empty string is
falsy in the source and is not traversed. -/
def traverseChildren {σ : Type} (v : Visitor σ) (parent : ASTNode) :
    List Field → List String → σ → σ
  | [], _, s => s
  | .one name c :: rest, path, s =>
    let s1 :=
      if ignoreKeys.contains name then s
      else if c.ntype ≠ "" then traverse v c (some parent) path s else s
    traverseChildren v parent rest path s1
  | .many name cs :: rest, path, s =>
    let s1 :=
      if ignoreKeys.contains name then s
      else traverseArray v parent cs path s
    traverseChildren v parent rest path s1

/-- The inner loop of traverseChildren over an array-valued property. -/
def traverseArray {σ : Type} (v : Visitor σ) (parent : ASTNode) :
    List ASTNode → List String → σ → σ
  | [], _, s => s
  | c :: rest, path, s =>
    let s1 := if c.ntype ≠ "" then traverse v c (some parent) path s else s
    traverseArray v parent rest path s1
end

/-- ASTTraverser.findNodes: collect every node of a given kind, in
traversal order. -/
def findNodes (ast : ASTNode) (nodeType : String) : List ASTNode :=
  traverse
    { entries := fun ty =>
        if ty = nodeType then
          some (.fn fun n _ _ found => (found ++ [n], false))
        else none,
      wildcard := none }
    ast none [] []

/-- ASTTraverser.findNode: the wildcard callback stores the first node
satisfying the predicate; the false it returns is discarded by traverse
for wildcard callbacks, so the walk continues but the stored result is
never overwritten. -/
def findNode (ast : ASTNode) (predicate : ASTNode → Bool) : Option ASTNode :=
  traverse
    { entries := fun _ => none,
      wildcard := some (.fn fun n _ _ result =>
        match result with
        | some r => (some r, true)
        | none => if predicate n then (some n, true) else (none, false)) }
    ast none [] none

/-! String helpers translating the JavaScript string operations used by
the analyzers. All scanning works on the character list of the string. -/

/-- JavaScript toUpperCase, restricted to the ASCII letters that appear
in the scanned patterns. -/
def jsToUpper (s : String) : String :=
  String.mk (s.data.map Char.toUpper)

/-- JavaScript toLowerCase on ASCII letters. -/
def jsToLower (s : String) : String :=
  String.mk (s.data.map Char.toLower)

/-- Decide whether the pattern occurs at the head of the text. -/
def prefixAt : List Char → List Char → Bool
  | [], _ => true
  | _ :: _, [] => false
  | p :: ps, c :: cs => p = c && prefixAt ps cs

/-- JavaScript String.includes: the pattern occurs somewhere in the
text. -/
def strIncludes (text pat : String) : Bool :=
  go text.data pat.data
where
  go : List Char → List Char → Bool
    | cs, pat =>
      if prefixAt pat cs then true
      else
        match cs with
        | [] => false
        | _ :: rest => go rest pat

/-- A character matched by the character class of letters and digits. -/
def isAlphaNum (c : Char) : Bool :=
  (('a' ≤ c && c ≤ 'z') || ('A' ≤ c && c ≤ 'Z') || ('0' ≤ c && c ≤ '9'))

/-- JavaScript String.substring(a, b) with the clamping behaviour the
analyzers rely on. -/
def jsSubstring (s : String) (a b : Nat) : String :=
  String.mk ((s.data.take b).drop a)

/-- JavaScript String.startsWith. -/
def jsStartsWith (s pat : String) : Bool :=
  prefixAt pat.data s.data

/-! The issue data model, from the shared types. The three TypeScript
interfaces Issue, SecurityIssue and ComplexityIssue are embedded as one
structure; the extension fields are optional and are set only by the
analyzer that produces them, exactly as the source sets them on the
object after createIssue. -/

/-- Severity enum of the shared common types. -/
inductive Severity where
  | error
  | warning
  | info
deriving DecidableEq, Repr

/-- IssueCategory enum of the shared issue types. -/
inductive IssueCategory where
  | security
  | complexity
  | codeSmell
  | bug
  | performance
  | bestPractice
  | style
deriving DecidableEq, Repr

/-- The Issue record. The id is produced by uuidv4 in the source; id
uniqueness is not part of any verified property, so the embedding uses
a fixed placeholder string. -/
structure Issue where
  id : String
  ruleId : String
  message : String
  severity : Severity
  category : IssueCategory
  location : SourceRange
  filePath : String
  codeSnippet : Option String
  suggestions : Option (List String)
  vulnerability : Option String
  cwe : Option String
  owasp : Option String
  complexityScore : Option ℚ
  threshold : Option ℚ
deriving DecidableEq, Repr

/-- BaseAnalyzer.createIssue: builds the base issue; when the node has
no source span, both ends of the location default to line 0, column 0.
The options argument of the source carries at most a code snippet and a
suggestion list, embedded as the last two arguments. -/
def createIssue (ruleId message : String) (severity : Severity)
    (category : IssueCategory) (node : ASTNode) (filePath : String)
    (codeSnippet : Option String := none)
    (suggestions : Option (List String) := none) : Issue :=
  { id := "uuid"
    ruleId := ruleId
    message := message
    severity := severity
    category := category
    location :=
      { start := match node.loc with
          | some r => r.start
          | none => { line := 0, column := 0 }
        stop := match node.loc with
          | some r => r.stop
          | none => { line := 0, column := 0 } }
    filePath := filePath
    codeSnippet := codeSnippet
    suggestions := suggestions
    vulnerability := none
    cwe := none
    owasp := none
    complexityScore := none
    threshold := none }

/-- BaseAnalyzer.extractCodeSnippet: returns the empty string for a
node without a span; otherwise slices the newline-split source between
start.line - context - 1 and end.line + context, clamped to the line
count, and rejoins with newlines. The arithmetic is on integers exactly
as in JavaScript; Math.max(0, _) makes the lower bound a Nat. -/
def extractCodeSnippet (sourceCode : String) (node : ASTNode)
    (context : Int := 2) : String :=
  match node.loc with
  | none => ""
  | some r =>
    let lines := sourceCode.splitOn "\n"
    let startLine : Int := max 0 ((r.start.line : Int) - context - 1)
    let endLine : Int := min (lines.length : Int) ((r.stop.line : Int) + context)
    String.intercalate "\n" ((lines.take endLine.toNat).drop startLine.toNat)

/-! The Security Analyzer (security-analyzer.ts). -/

/-- Truthiness of a literal value in JavaScript: the empty string and
the number zero are falsy; the template value object is truthy. -/
def jsTruthyVal : JSVal → Bool
  | .vstr s => s ≠ ""
  | .vnum q => q ≠ 0
  | .vtemplate _ _ => true

/-- JavaScript String(value). Exact for string values, which are the
only values the scanned patterns can match; a numeric value renders as
its decimal form (the rendering of a number never contains a letter
sequence, so the SQL keyword scans below agree with the source on
numeric operands); the template value object renders as the standard
object placeholder. -/
def jsString : JSVal → String
  | .vstr s => s
  | .vnum q => if q.den = 1 then toString q.num else toString q
  | .vtemplate _ _ => "[object Object]"

mutual
/-- SecurityAnalyzer.containsStringLiteral: a literal node, or a node
whose left or right property transitively contains one. -/
def containsStringLiteral : ASTNode → Bool
  | .mk t _ _ _ _ _ _ props =>
    if t = "StringLiteral" || t = "Literal" then true
    else cslAtProp "left" props || cslAtProp "right" props

/-- Lookup of node.left or node.right followed by the recursive call:
applies containsStringLiteral to the first single-node property with
the given name, as the source does via node.left && recursion. -/
def cslAtProp (key : String) : List Field → Bool
  | [] => false
  | .one name c :: rest =>
    if name = key then containsStringLiteral c else cslAtProp key rest
  | .many _ _ :: rest => cslAtProp key rest
end

/-- SecurityAnalyzer.getNodeCode. The unreachable arm under the truthy
guard returns the empty string. -/
def getNodeCode (node : Option ASTNode) (sourceCode : String) : String :=
  match node with
  | none => ""
  | some n =>
    if (n.ntype = "StringLiteral" || n.ntype = "Literal") &&
        (match n.value with | some v => jsTruthyVal v | none => false) then
      match n.value with
      | some v => jsString v
      | none => ""
    else if n.ntype = "Identifier" then
      (n.getStr "name").getD ""
    else
      match n.range with
      | some (a, b) => jsSubstring sourceCode a b
      | none => ""

/-- The callee name of a call (node.callee?.name). -/
def calleeName (node : ASTNode) : Option String :=
  (node.getOne "callee").bind (fun c => c.getStr "name")

/-- The callee member name of a call (node.callee?.property?.name). -/
def calleePropertyName (node : ASTNode) : Option String :=
  ((node.getOne "callee").bind (fun c => c.getOne "property")).bind
    (fun p => p.getStr "name")

/-- The first argument of a call (node.arguments?.[0]). -/
def firstArgument (node : ASTNode) : Option ASTNode :=
  (node.getMany "arguments").bind List.head?

/-- JavaScript a || b on possibly-undefined strings: an empty string is
falsy and falls through to the second operand. -/
def jsOrStr (a b : Option String) : Option String :=
  match a with
  | some s => if s = "" then b else some s
  | none => b

/-- The SQL keyword list of checkSQLInjectionInExpression. -/
def sqlKeywordsConcat : List String :=
  ["SELECT", "INSERT", "UPDATE", "DELETE", "FROM", "WHERE", "DROP", "CREATE"]

/-- The SQL keyword list of checkSQLInjection. -/
def sqlKeywordsCall : List String :=
  ["SELECT", "INSERT", "UPDATE", "DELETE", "FROM", "WHERE"]

/-- Attach the SQL injection taxonomy to a base issue, as the source
does by assignment after createIssue. -/
def withSQLInjectionTaxonomy (i : Issue) : Issue :=
  { i with
    vulnerability := some "SQL Injection"
    cwe := some "CWE-89"
    owasp := some "A03:2021 - Injection" }

/-- SecurityAnalyzer.checkSQLInjectionInExpression. -/
def checkSQLInjectionInExpression (node : ASTNode)
    (filePath sourceCode : String) (issues : List Issue) : List Issue :=
  if node.getStr "operator" = some "+" then
    if containsStringLiteral node then
      let leftCode := getNodeCode (node.getOne "left") sourceCode
      let rightCode := getNodeCode (node.getOne "right") sourceCode
      let combinedCode := jsToUpper (leftCode ++ " " ++ rightCode)
      if sqlKeywordsConcat.any (fun keyword => strIncludes combinedCode keyword) then
        issues ++ [withSQLInjectionTaxonomy (createIssue
          "sql-injection"
          "SQL query uses string concatenation. This is vulnerable to SQL injection."
          Severity.error IssueCategory.security node filePath
          (some (extractCodeSnippet sourceCode node))
          (some ["Use parameterized queries or prepared statements"]))]
      else issues
    else issues
  else issues

/-- SecurityAnalyzer.checkSQLInjection: both the template-literal branch
and the concatenation branch can append an issue for the same call. -/
def checkSQLInjection (node : ASTNode) (filePath sourceCode : String)
    (issues : List Issue) : List Issue :=
  if calleePropertyName node = some "query" ∨ calleePropertyName node = some "execute" then
    let firstArg := firstArgument node
    let issues1 :=
      match firstArg with
      | some fa =>
        if fa.ntype = "TemplateLiteral" ∧ ((fa.getMany "expressions").getD []).length > 0 then
          let hasSQL := ((fa.getMany "quasis").getD []).any fun quasi =>
            sqlKeywordsCall.any fun keyword =>
              match quasi.value with
              | some (.vtemplate raw _) => strIncludes (jsToUpper raw) keyword
              | _ => false
          if hasSQL then
            issues ++ [withSQLInjectionTaxonomy (createIssue
              "sql-injection"
              "Potential SQL injection vulnerability. Use parameterized queries instead."
              Severity.error IssueCategory.security node filePath
              (some (extractCodeSnippet sourceCode node))
              (some ["Use parameterized queries or prepared statements"]))]
          else issues
        else issues
      | none => issues
    match firstArg with
    | some fa =>
      if fa.ntype = "BinaryExpression" ∧ fa.getStr "operator" = some "+" then
        issues1 ++ [withSQLInjectionTaxonomy (createIssue
          "sql-injection"
          "SQL query uses string concatenation. This is vulnerable to SQL injection."
          Severity.error IssueCategory.security node filePath
          (some (extractCodeSnippet sourceCode node))
          (some ["Use parameterized queries instead of string concatenation"]))]
      else issues1
    | none => issues1
  else issues

/-- The dangerous call names of checkCommandInjection. -/
def dangerousCallFunctions : List String :=
  ["exec", "execSync", "spawn", "spawnSync", "execFile"]

/-- SecurityAnalyzer.checkCommandInjection. -/
def checkCommandInjection (node : ASTNode) (filePath sourceCode : String)
    (issues : List Issue) : List Issue :=
  let funcName := jsOrStr (calleeName node) (calleePropertyName node)
  if (match funcName with
      | some f => dangerousCallFunctions.contains f
      | none => false) then
    match firstArgument node with
    | some fa =>
      if fa.ntype = "TemplateLiteral" ∨
          (fa.ntype = "BinaryExpression" ∧ fa.getStr "operator" = some "+") then
        issues ++ [{ createIssue
          "command-injection"
          "Potential command injection vulnerability. Avoid using user input in system commands."
          Severity.error IssueCategory.security node filePath
          (some (extractCodeSnippet sourceCode node))
          (some ["Validate and sanitize all inputs",
                 "Use safer alternatives like spawn with array arguments"]) with
          vulnerability := some "Command Injection"
          cwe := some "CWE-78"
          owasp := some "A03:2021 - Injection" }]
      else issues
    | none => issues
  else issues

/-- SecurityAnalyzer.checkXSS. -/
def checkXSS (node : ASTNode) (filePath sourceCode : String)
    (issues : List Issue) : List Issue :=
  if ((node.getOne "name").bind (fun nm => nm.getStr "name")) =
      some "dangerouslySetInnerHTML" then
    issues ++ [{ createIssue
      "xss-danger"
      "Using dangerouslySetInnerHTML can lead to XSS vulnerabilities."
      Severity.warning IssueCategory.security node filePath
      (some (extractCodeSnippet sourceCode node))
      (some ["Sanitize HTML before rendering", "Use DOMPurify or similar library"]) with
      vulnerability := some "Cross-Site Scripting (XSS)"
      cwe := some "CWE-79"
      owasp := some "A03:2021 - Injection" }]
  else issues

/-- Regex sk_live_ then at least 20 alphanumerics, anchored, with the
case-insensitive flag. -/
def skLivePattern (s : String) : Bool :=
  let l := jsToLower s
  jsStartsWith l "sk_live_" && decide ((l.data.drop 8).length ≥ 20) &&
    (l.data.drop 8).all isAlphaNum

/-- Regex of at least 32 alphanumerics, anchored at both ends. -/
def longTokenPattern (s : String) : Bool :=
  decide (s.data.length ≥ 32) && s.data.all isAlphaNum

/-- Scan for the closing marker of the private key header over
characters of a single line, as the dot of the regex does not cross a
newline. -/
def pemScanAfter : List Char → Bool
  | [] => prefixAt "PRIVATE KEY-----".data []
  | c :: rest =>
    if prefixAt "PRIVATE KEY-----".data (c :: rest) then true
    else if c = '\n' then false
    else pemScanAfter rest

/-- Unanchored search for the private key header regex: an occurrence
of the BEGIN marker followed, on the same line, by the closing
marker. -/
def privateKeyPattern (s : String) : Bool :=
  pemGo s.data
where
  pemGo : List Char → Bool
    | [] => prefixAt "-----BEGIN".data [] && pemScanAfter ([].drop 10)
    | c :: rest =>
      if prefixAt "-----BEGIN".data (c :: rest) && pemScanAfter ((c :: rest).drop 10) then
        true
      else pemGo rest

/-- Case-insensitive search for password, secret or token. -/
def potentialSecretPattern (s : String) : Bool :=
  let l := jsToLower s
  strIncludes l "password" || strIncludes l "secret" || strIncludes l "token"

/-- One secret-detection pattern of checkHardcodedSecrets. -/
structure SecretPattern where
  test : String → Bool
  name : String
  minLength : Option Nat

/-- The secretPatterns table of checkHardcodedSecrets, in order. -/
def secretPatterns : List SecretPattern :=
  [ { test := skLivePattern, name := "API Key (Stripe-like)", minLength := none },
    { test := longTokenPattern, name := "Long API Key or Token", minLength := none },
    { test := privateKeyPattern, name := "Private Key", minLength := none },
    { test := potentialSecretPattern, name := "Potential Secret", minLength := some 15 } ]

/-- SecurityAnalyzer.checkHardcodedSecrets: non-string values are
ignored, strings shorter than 8 characters are ignored, and the first
matching pattern wins with at most one issue per literal. -/
def checkHardcodedSecrets (node : ASTNode) (filePath sourceCode : String)
    (issues : List Issue) : List Issue :=
  match node.value with
  | some (.vstr value) =>
    if value.length < 8 then issues
    else
      match secretPatterns.find? (fun pattern =>
        let minLength := pattern.minLength.getD value.length
        pattern.test value && decide (value.length ≥ minLength)) with
      | some pattern =>
        issues ++ [{ createIssue
          "hardcoded-secret"
          ("Potential hardcoded " ++ pattern.name ++
            " detected. Store secrets in environment variables or secure vaults.")
          Severity.error IssueCategory.security node filePath
          (some (extractCodeSnippet sourceCode node))
          (some ["Use environment variables (process.env)",
                 "Use a secrets management service"]) with
          vulnerability := some "Hardcoded Secrets"
          cwe := some "CWE-798"
          owasp := some "A07:2021 - Identification and Authentication Failures" }]
      | none => issues
  | _ => issues

/-- The dangerous identifier list of checkDangerousFunctions. -/
def dangerousIdentifiers : List String :=
  ["eval", "Function", "setTimeout", "setInterval"]

/-- SecurityAnalyzer.checkDangerousFunctions. -/
def checkDangerousFunctions (node : ASTNode) (filePath sourceCode : String)
    (issues : List Issue) : List Issue :=
  match node.getStr "name" with
  | some nm =>
    if dangerousIdentifiers.contains nm then
      issues ++ [{ createIssue
        "dangerous-function"
        ("Using " ++ nm ++ " with dynamic code can lead to code injection vulnerabilities.")
        Severity.warning IssueCategory.security node filePath
        (some (extractCodeSnippet sourceCode node))
        (some ["Avoid using eval and similar functions", "Use safer alternatives"]) with
        vulnerability := some "Code Injection"
        cwe := some "CWE-94"
        owasp := some "A03:2021 - Injection" }]
    else issues
  | none => issues

/-- The visitor map of SecurityAnalyzer.analyze. -/
def securityVisitor (filePath sourceCode : String) : Visitor (List Issue) where
  entries := fun ty =>
    if ty = "CallExpression" then
      some (.fn fun node _ _ issues =>
        (checkCommandInjection node filePath sourceCode
          (checkSQLInjection node filePath sourceCode issues), false))
    else if ty = "BinaryExpression" then
      some (.fn fun node _ _ issues =>
        (checkSQLInjectionInExpression node filePath sourceCode issues, false))
    else if ty = "JSXAttribute" then
      some (.fn fun node _ _ issues =>
        (checkXSS node filePath sourceCode issues, false))
    else if ty = "StringLiteral" then
      some (.fn fun node _ _ issues =>
        (checkHardcodedSecrets node filePath sourceCode issues, false))
    else if ty = "Literal" then
      some (.fn fun node _ _ issues =>
        (checkHardcodedSecrets node filePath sourceCode issues, false))
    else if ty = "Identifier" then
      some (.fn fun node _ _ issues =>
        (checkDangerousFunctions node filePath sourceCode issues, false))
    else none
  wildcard := none

/-- SecurityAnalyzer.analyze: one traversal with the security visitor,
starting from an empty issue list. -/
def securityAnalyze (ast : ASTNode) (filePath sourceCode : String) : List Issue :=
  traverse (securityVisitor filePath sourceCode) ast none [] []

/-! The Complexity Analyzer (complexity-analyzer.ts). -/

/-- Thresholds of the complexity analyzer. -/
def CYCLOMATIC_THRESHOLD : Int := 10

def COGNITIVE_THRESHOLD : Int := 15

def NESTING_THRESHOLD : Int := 4

def FUNCTION_LENGTH_THRESHOLD : Int := 50

/-- A visitor entry that increments the cyclomatic counter. -/
def cyclomaticIncrement : Option (VisitorEntry Int) :=
  some (.fn fun _ _ _ complexity => (complexity + 1, false))

/-- The visitor map of calculateCyclomaticComplexity: one increment per
decision point; the default switch case (no test) does not count; only
the && and || logical operators count. -/
def cyclomaticVisitor : Visitor Int where
  entries := fun ty =>
    if ty = "IfStatement" then cyclomaticIncrement
    else if ty = "ConditionalExpression" then cyclomaticIncrement
    else if ty = "ForStatement" then cyclomaticIncrement
    else if ty = "ForInStatement" then cyclomaticIncrement
    else if ty = "ForOfStatement" then cyclomaticIncrement
    else if ty = "WhileStatement" then cyclomaticIncrement
    else if ty = "DoWhileStatement" then cyclomaticIncrement
    else if ty = "SwitchCase" then
      some (.fn fun caseNode _ _ complexity =>
        (if (caseNode.getOne "test").isSome then complexity + 1 else complexity, false))
    else if ty = "CatchClause" then cyclomaticIncrement
    else if ty = "LogicalExpression" then
      some (.fn fun logicalNode _ _ complexity =>
        (if logicalNode.getStr "operator" = some "&&" ∨
            logicalNode.getStr "operator" = some "||"
         then complexity + 1 else complexity, false))
    else none
  wildcard := none

/-- ComplexityAnalyzer.calculateCyclomaticComplexity: start at 1 and
run the counting traversal. -/
def calculateCyclomaticComplexity (node : ASTNode) : Int :=
  traverse cyclomaticVisitor node none [] 1

/-- The incrementors list of calculateCognitiveComplexity. -/
def cognitiveIncrementors : List String :=
  ["IfStatement", "ConditionalExpression", "ForStatement", "ForInStatement",
   "ForOfStatement", "WhileStatement", "DoWhileStatement", "SwitchCase",
   "CatchClause"]

/-- The visitor map of calculateCognitiveComplexity, exactly as the
source registers it: the nesting-aware increments sit on an enter/exit
hook pair stored under the wildcard key, and the logical operators have
a plain entry. The state is the pair (complexity, nestingLevel). -/
def cognitiveVisitor : Visitor (Int × Int) where
  entries := fun ty =>
    if ty = "LogicalExpression" then
      some (.fn fun logicalNode _ _ s =>
        (if logicalNode.getStr "operator" = some "&&" ∨
            logicalNode.getStr "operator" = some "||"
         then (s.1 + 1, s.2) else s, false))
    else none
  wildcard := some (.hooks
    (some fun astNode _ _ s =>
      (if cognitiveIncrementors.contains astNode.ntype
       then (s.1 + (1 + s.2), s.2 + 1) else s, false))
    (some fun astNode _ _ s =>
      (if cognitiveIncrementors.contains astNode.ntype
       then (s.1, s.2 - 1) else s, false)))

/-- ComplexityAnalyzer.calculateCognitiveComplexity. -/
def calculateCognitiveComplexity (node : ASTNode) : Int :=
  (traverse cognitiveVisitor node none [] (0, 0)).1

/-- The nestingNodes list of calculateNestingDepth. -/
def nestingNodes : List String :=
  ["IfStatement", "ForStatement", "ForInStatement", "ForOfStatement",
   "WhileStatement", "DoWhileStatement", "TryStatement", "SwitchStatement"]

/-- The visitor map of calculateNestingDepth, exactly as the source
registers it: only an enter/exit hook pair stored under the wildcard
key. The state is the pair (maxDepth, currentDepth). -/
def nestingVisitor : Visitor (Int × Int) where
  entries := fun _ => none
  wildcard := some (.hooks
    (some fun astNode _ _ s =>
      (if nestingNodes.contains astNode.ntype
       then (max s.1 (s.2 + 1), s.2 + 1) else s, false))
    (some fun astNode _ _ s =>
      (if nestingNodes.contains astNode.ntype
       then (s.1, s.2 - 1) else s, false)))

/-- ComplexityAnalyzer.calculateNestingDepth. -/
def calculateNestingDepth (node : ASTNode) : Int :=
  (traverse nestingVisitor node none [] (0, 0)).1

/-- The ComplexityResult record of complexity-analyzer.ts. -/
structure ComplexityResult where
  cyclomaticComplexity : Int
  cognitiveComplexity : Int
  nestingDepth : Int
  maxNesting : Int
deriving DecidableEq, Repr

/-- ComplexityAnalyzer.calculateComplexity. -/
def calculateComplexity (node : ASTNode) : ComplexityResult :=
  { cyclomaticComplexity := calculateCyclomaticComplexity node
    cognitiveComplexity := calculateCognitiveComplexity node
    nestingDepth := calculateNestingDepth node
    maxNesting := calculateNestingDepth node }

/-- ComplexityAnalyzer.getFunctionName: the declaration name, else the
method key name, else the anonymous marker; an empty name string is
falsy and falls through. -/
def getFunctionName (node : ASTNode) : String :=
  (jsOrStr ((node.getOne "id").bind (fun i => i.getStr "name"))
    (jsOrStr ((node.getOne "key").bind (fun k => k.getStr "name"))
      (some "<anonymous>"))).getD "<anonymous>"

/-- ComplexityAnalyzer.analyzeFunctionComplexity: the four independent
threshold checks, each appending one complexity issue when exceeded. -/
def analyzeFunctionComplexity (node : ASTNode) (filePath sourceCode : String)
    (issues : List Issue) : List Issue :=
  let functionName := getFunctionName node
  let complexity := calculateComplexity node
  let issues :=
    if complexity.cyclomaticComplexity > CYCLOMATIC_THRESHOLD then
      issues ++ [{ createIssue
        "high-cyclomatic-complexity"
        ("Function \"" ++ functionName ++ "\" has cyclomatic complexity of " ++
          toString complexity.cyclomaticComplexity ++ " (threshold: " ++
          toString CYCLOMATIC_THRESHOLD ++ "). Consider breaking it into smaller functions.")
        Severity.warning IssueCategory.complexity node filePath
        (some (extractCodeSnippet sourceCode node))
        (some ["Break down into smaller functions",
               "Extract complex conditionals into separate functions"]) with
        complexityScore := some (complexity.cyclomaticComplexity : ℚ)
        threshold := some (CYCLOMATIC_THRESHOLD : ℚ) }]
    else issues
  let issues :=
    if complexity.cognitiveComplexity > COGNITIVE_THRESHOLD then
      issues ++ [{ createIssue
        "high-cognitive-complexity"
        ("Function \"" ++ functionName ++ "\" has cognitive complexity of " ++
          toString complexity.cognitiveComplexity ++ " (threshold: " ++
          toString COGNITIVE_THRESHOLD ++ "). This function may be hard to understand.")
        Severity.warning IssueCategory.complexity node filePath
        (some (extractCodeSnippet sourceCode node))
        (some ["Simplify logic", "Reduce nesting levels", "Extract complex conditions"]) with
        complexityScore := some (complexity.cognitiveComplexity : ℚ)
        threshold := some (COGNITIVE_THRESHOLD : ℚ) }]
    else issues
  let issues :=
    if complexity.maxNesting > NESTING_THRESHOLD then
      issues ++ [{ createIssue
        "excessive-nesting"
        ("Function \"" ++ functionName ++ "\" has maximum nesting depth of " ++
          toString complexity.maxNesting ++ " (threshold: " ++
          toString NESTING_THRESHOLD ++ "). Deep nesting makes code harder to read.")
        Severity.warning IssueCategory.complexity node filePath
        (some (extractCodeSnippet sourceCode node))
        (some ["Use early returns to reduce nesting",
               "Extract nested logic into separate functions"]) with
        complexityScore := some (complexity.maxNesting : ℚ)
        threshold := some (NESTING_THRESHOLD : ℚ) }]
    else issues
  match node.loc with
  | some r =>
    let length : Int := (r.stop.line : Int) - (r.start.line : Int)
    if length > FUNCTION_LENGTH_THRESHOLD then
      issues ++ [{ createIssue
        "long-function"
        ("Function \"" ++ functionName ++ "\" is " ++ toString length ++
          " lines long (threshold: " ++ toString FUNCTION_LENGTH_THRESHOLD ++
          "). Long functions are harder to maintain.")
        Severity.info IssueCategory.complexity node filePath
        (some (extractCodeSnippet sourceCode node 1))
        (some ["Break into smaller, focused functions",
               "Apply Single Responsibility Principle"]) with
        complexityScore := some (length : ℚ)
        threshold := some (FUNCTION_LENGTH_THRESHOLD : ℚ) }]
    else issues
  | none => issues

/-- The visitor map of ComplexityAnalyzer.analyze: find every
function-like unit and analyze it; method definitions analyze their
value function. -/
def complexityVisitor (filePath sourceCode : String) : Visitor (List Issue) where
  entries := fun ty =>
    if ty = "FunctionDeclaration" ∨ ty = "FunctionExpression" ∨
        ty = "ArrowFunctionExpression" then
      some (.fn fun node _ _ issues =>
        (analyzeFunctionComplexity node filePath sourceCode issues, false))
    else if ty = "MethodDefinition" then
      some (.fn fun node _ _ issues =>
        (match node.getOne "value" with
         | some v => analyzeFunctionComplexity v filePath sourceCode issues
         | none => issues, false))
    else none
  wildcard := none

/-- ComplexityAnalyzer.analyze. -/
def complexityAnalyze (ast : ASTNode) (filePath sourceCode : String) : List Issue :=
  traverse (complexityVisitor filePath sourceCode) ast none [] []

/-! The Code Quality Analyzer (code-quality-analyzer.ts). -/

/-- The ignored numeric values of checkMagicNumbers. -/
def ignoredValues : List ℚ := [0, 1, -1, 2, 10, 100]

/-- CodeQualityAnalyzer.checkMagicNumbers. Parsed nodes carry no parent
property, so the member-expression guard reads undefined and never
fires. -/
def checkMagicNumbers (node : ASTNode) (filePath sourceCode : String)
    (issues : List Issue) : List Issue :=
  match node.value with
  | some (.vnum value) =>
    if ignoredValues.contains value then issues
    else
      let parent : Option ASTNode := none
      if (parent.map ASTNode.ntype) = some "MemberExpression" then issues
      else
        issues ++ [createIssue
          "magic-number"
          ("Magic number " ++ jsString (.vnum value) ++
            " should be replaced with a named constant.")
          Severity.info IssueCategory.codeSmell node filePath
          (some (extractCodeSnippet sourceCode node))
          (some ["Create a named constant like: const MEANINGFUL_NAME = " ++
            jsString (.vnum value)])]
  | _ => issues

/-- The parameter limit of checkLongParameterList. -/
def MAX_PARAMS : Nat := 4

/-- CodeQualityAnalyzer.checkLongParameterList. -/
def checkLongParameterList (node : ASTNode) (filePath sourceCode : String)
    (issues : List Issue) : List Issue :=
  let params := (node.getMany "params").getD []
  if params.length > MAX_PARAMS then
    let functionName :=
      (jsOrStr ((node.getOne "id").bind (fun i => i.getStr "name"))
        (some "<anonymous>")).getD "<anonymous>"
    issues ++ [createIssue
      "long-parameter-list"
      ("Function " ++ functionName ++ " has " ++ toString params.length ++
        " parameters (max: " ++ toString MAX_PARAMS ++ "). Consider using an options object.")
      Severity.info IssueCategory.codeSmell node filePath
      (some (extractCodeSnippet sourceCode node 1))
      (some ["Combine related parameters into an options object",
             "Break function into smaller functions"])]
  else issues

/-- CodeQualityAnalyzer.checkEmptyCatchBlock. -/
def checkEmptyCatchBlock (node : ASTNode) (filePath sourceCode : String)
    (issues : List Issue) : List Issue :=
  let catchBody := ((node.getOne "body").bind (fun b => b.getMany "body")).getD []
  if catchBody.length = 0 then
    issues ++ [createIssue
      "empty-catch-block"
      "Empty catch block. Silent failures can hide bugs."
      Severity.warning IssueCategory.codeSmell node filePath
      (some (extractCodeSnippet sourceCode node))
      (some ["Log the error", "Handle the error appropriately",
             "Rethrow if cannot handle"])]
  else issues

/-- The console method list of checkConsoleStatements. -/
def consoleMethods : List String := ["log", "debug", "info", "warn", "error"]

/-- CodeQualityAnalyzer.checkConsoleStatements. -/
def checkConsoleStatements (node : ASTNode) (filePath sourceCode : String)
    (issues : List Issue) : List Issue :=
  if decide ((((node.getOne "callee").bind (fun c => c.getOne "object")).bind
        (fun o => o.getStr "name")) = some "console") &&
      (match calleePropertyName node with
       | some m => consoleMethods.contains m
       | none => false) then
    issues ++ [createIssue
      "console-statement"
      ("Console statement found: console." ++
        (calleePropertyName node).getD "" ++ "(). Remove before production.")
      Severity.info IssueCategory.codeSmell node filePath
      (some (extractCodeSnippet sourceCode node))
      (some ["Use a proper logging library",
             "Remove console statements before deployment"])]
  else issues

/-- CodeQualityAnalyzer.checkDebuggerStatements, registered under the
call-expression handler exactly as in the source. -/
def checkDebuggerStatements (node : ASTNode) (filePath sourceCode : String)
    (issues : List Issue) : List Issue :=
  if node.ntype = "DebuggerStatement" then
    issues ++ [createIssue
      "debugger-statement"
      "Debugger statement found. Remove before production."
      Severity.warning IssueCategory.codeSmell node filePath
      (some (extractCodeSnippet sourceCode node))
      (some ["Remove debugger statement"])]
  else issues

/-- The marker-comment test of checkTodoComments, case-insensitive. -/
def todoCommentMatch (comment : String) : Bool :=
  let l := jsToLower comment
  strIncludes l "todo" || strIncludes l "fixme" || strIncludes l "hack" ||
    strIncludes l "xxx"

/-- CodeQualityAnalyzer.checkTodoComments: leading comments when the
attachment is present, else trailing comments, else nothing; one issue
per matching comment. -/
def checkTodoComments (node : ASTNode) (filePath : String)
    (issues : List Issue) : List Issue :=
  let comments := (node.leadingComments).getD ((node.trailingComments).getD [])
  comments.foldl (fun issues comment =>
    if comment ≠ "" ∧ todoCommentMatch comment then
      issues ++ [createIssue
        "todo-comment"
        ("TODO/FIXME comment found: \"" ++ comment.trim ++
          "\". Consider creating a task.")
        Severity.info IssueCategory.codeSmell node filePath
        none
        (some ["Create a task in your issue tracker", "Address the TODO item"])]
    else issues) issues

/-- The mutable state of CodeQualityAnalyzer.analyze: the two name sets
(embedded as insertion-ordered duplicate-free lists, matching Set
iteration order) and the issue list. -/
structure QState where
  declaredVariables : List String
  usedVariables : List String
  issues : List Issue
deriving DecidableEq, Repr

/-- JavaScript Set.add: keep insertion order, ignore duplicates. -/
def setAdd (s : List String) (x : String) : List String :=
  if s.contains x then s else s ++ [x]

/-- Collect the parameter names of a function-like node into the
declared set (param.name is skipped when absent or empty, as an empty
string is falsy). -/
def addParamNames (node : ASTNode) (declared : List String) : List String :=
  ((node.getMany "params").getD []).foldl (fun d param =>
    match param.getStr "name" with
    | some nm => if nm = "" then d else setAdd d nm
    | none => d) declared

/-- The visitor map of CodeQualityAnalyzer.analyze. The wildcard entry
is a plain function, so the traverser invokes it for every node. -/
def qualityVisitor (filePath sourceCode : String) : Visitor QState where
  entries := fun ty =>
    if ty = "VariableDeclarator" then
      some (.fn fun node _ _ st =>
        (match (node.getOne "id").bind (fun i => i.getStr "name") with
         | some nm =>
           if nm = "" then st
           else { st with declaredVariables := setAdd st.declaredVariables nm }
         | none => st, false))
    else if ty = "FunctionDeclaration" ∨ ty = "FunctionExpression" then
      some (.fn fun node _ _ st =>
        ({ st with
           declaredVariables := addParamNames node st.declaredVariables
           issues := checkLongParameterList node filePath sourceCode st.issues },
         false))
    else if ty = "ArrowFunctionExpression" then
      some (.fn fun node _ _ st =>
        ({ st with declaredVariables := addParamNames node st.declaredVariables },
         false))
    else if ty = "Identifier" then
      some (.fn fun node _ _ st =>
        (match node.getStr "name" with
         | some nm =>
           if nm = "" then st
           else { st with usedVariables := setAdd st.usedVariables nm }
         | none => st, false))
    else if ty = "Literal" then
      some (.fn fun node _ _ st =>
        ({ st with issues := checkMagicNumbers node filePath sourceCode st.issues },
         false))
    else if ty = "CatchClause" then
      some (.fn fun node _ _ st =>
        ({ st with issues := checkEmptyCatchBlock node filePath sourceCode st.issues },
         false))
    else if ty = "CallExpression" then
      some (.fn fun node _ _ st =>
        let issues1 := checkConsoleStatements node filePath sourceCode st.issues
        ({ st with issues := checkDebuggerStatements node filePath sourceCode issues1 },
         false))
    else none
  wildcard := some (.fn fun node _ _ st =>
    ({ st with issues := checkTodoComments node filePath st.issues }, false))

/-- The unused-variable loop at the end of CodeQualityAnalyzer.analyze:
for every declared name not in the used set and not prefixed with an
underscore, locate its declaration node with findNode and report it. -/
def qualityUnusedIssues (ast : ASTNode) (filePath : String)
    (declaredVariables usedVariables : List String)
    (issues : List Issue) : List Issue :=
  declaredVariables.foldl (fun issues varName =>
    if !usedVariables.contains varName && !varName.startsWith "_" then
      match findNode ast (fun n =>
        decide (((n.getOne "id").bind (fun i => i.getStr "name")) = some varName) ||
          decide (n.getStr "name" = some varName)) with
      | some nodes =>
        issues ++ [createIssue
          "unused-variable"
          ("Variable " ++ varName ++ " is declared but never used.")
          Severity.warning IssueCategory.codeSmell nodes filePath
          none
          (some ["Remove the unused variable",
                 "If intentional, prefix with underscore: _" ++ varName])]
      | none => issues
    else issues) issues

/-- CodeQualityAnalyzer.analyze: one traversal collecting the name sets
and the per-node issues, then the unused-variable loop. -/
def qualityAnalyze (ast : ASTNode) (filePath sourceCode : String) : List Issue :=
  let st := traverse (qualityVisitor filePath sourceCode) ast none []
    { declaredVariables := [], usedVariables := [], issues := [] }
  qualityUnusedIssues ast filePath st.declaredVariables st.usedVariables st.issues

/-! The Analyzer Coordinator (analyzer-coordinator.ts). -/

/-- The ParseResult record of base-parser.ts, minus the tree itself
(carried separately where needed). -/
structure ParseResult where
  language : String
  sourceCode : String
  filePath : String
deriving DecidableEq, Repr

/-- The FileMetrics record computed by calculateFileMetrics. -/
structure FileMetrics where
  complexity : ℚ
  maintainability : ℚ
  linesOfCode : Nat
deriving DecidableEq, Repr

/-- The FileInfo record of the shared common types. -/
structure FileInfo where
  path : String
  language : String
  size : Nat
  linesOfCode : Nat
deriving DecidableEq, Repr

/-- The FileAnalysisResult record returned by analyzeFile. -/
structure FileAnalysisResult where
  file : FileInfo
  issues : List Issue
  suggestions : List String
  metrics : FileMetrics
deriving DecidableEq, Repr

/-- The outcome of awaiting one analyzer.analyze call: a list of issues,
or a thrown error with its message. -/
abbrev AnalyzerOutcome := Except String (List Issue)

/-- The analyzer loop of AnalyzerCoordinator.analyzeFile: each analyzer
runs inside a try block; a successful analyzer has its issues pushed
onto the shared list, a throwing analyzer is logged and contributes
nothing, and the loop continues either way. -/
def runAnalyzers (outcomes : List AnalyzerOutcome) : List Issue :=
  outcomes.foldl
    (fun issues outcome =>
      match outcome with
      | .ok analyzerIssues => issues ++ analyzerIssues
      | .error _ => issues)
    []

/-- AnalyzerCoordinator.calculateFileMetrics: the mean of the scores of
the complexity-category issues (1 when there are none), and the
maintainability index derived from the issue count and that mean. -/
def calculateFileMetrics (parseResult : ParseResult) (issues : List Issue) :
    FileMetrics :=
  let lines := parseResult.sourceCode.splitOn "\n"
  let linesOfCode := lines.length
  let complexityIssues := issues.filter (fun i => i.category = IssueCategory.complexity)
  let avgComplexity : ℚ :=
    if complexityIssues.length > 0 then
      (complexityIssues.foldl (fun sum i => sum + i.complexityScore.getD 0) 0) /
        (complexityIssues.length : ℚ)
    else 1
  let issueWeight : ℚ := (issues.length : ℚ) * 2
  let maintainability := max 0 (100 - issueWeight - avgComplexity * 2)
  { complexity := avgComplexity
    maintainability := maintainability
    linesOfCode := linesOfCode }

/-- AnalyzerCoordinator.analyzeFile, with the analyzer outcomes passed
in: merge the issues, compute the metrics, build the file info, and
return the result with an empty suggestion list. -/
def analyzeFile (parseResult : ParseResult) (outcomes : List AnalyzerOutcome) :
    FileAnalysisResult :=
  let issues := runAnalyzers outcomes
  let metrics := calculateFileMetrics parseResult issues
  { file :=
      { path := parseResult.filePath
        language := parseResult.language
        size := parseResult.sourceCode.length
        linesOfCode := (parseResult.sourceCode.splitOn "\n").length }
    issues := issues
    suggestions := []
    metrics := metrics }

/-! The Analysis Service project aggregation (analysis-service.ts). -/

/-- The Grade record of the shared metrics types. -/
structure Grade where
  score : ℚ
  letter : String
  label : String
deriving DecidableEq, Repr

/-- The CodeMetrics record of the shared metrics types. -/
structure CodeMetrics where
  totalFiles : Nat
  totalLines : Nat
  codeLines : Int
  commentLines : Int
  blankLines : Int
  functions : Nat
  classes : Nat
  averageComplexity : ℚ
deriving DecidableEq, Repr

/-- The QualityMetrics record of the shared metrics types. -/
structure QualityMetrics where
  maintainabilityIndex : ℚ
  technicalDebt : ℚ
  duplicateLines : Nat
  duplicatePercentage : ℚ
deriving DecidableEq, Repr

/-- The ComplexityMetrics record of the shared metrics types. -/
structure ComplexityMetrics where
  cyclomaticComplexity : ℚ
  cognitiveComplexity : ℚ
  nestingDepth : ℚ
  linesOfCode : Nat
  maintainabilityIndex : ℚ
deriving DecidableEq, Repr

/-- The ProjectMetrics record, minus the wall-clock timestamp. -/
structure ProjectMetrics where
  code : CodeMetrics
  quality : QualityMetrics
  complexity : ComplexityMetrics
  grade : Grade
deriving DecidableEq, Repr

/-- The fields of the AnalysisResult record that the metrics
aggregation reads. AnalysisService.analyzeDirectory pushes
fileResult.file — a FileInfo, not the full file result — into files,
and concatenates fileResult.issues into issues. -/
structure AnalysisResult where
  files : List FileInfo
  issues : List Issue
deriving DecidableEq, Repr

/-- AnalysisService.calculateGrade. -/
def calculateGrade (score : ℚ) : Grade :=
  if score ≥ 80 then { score := score, letter := "A", label := "Excellent" }
  else if score ≥ 60 then { score := score, letter := "B", label := "Good" }
  else if score ≥ 40 then { score := score, letter := "C", label := "Fair" }
  else if score ≥ 20 then { score := score, letter := "D", label := "Poor" }
  else { score := score, letter := "F", label := "Critical" }

/-- The property access (f as any).metrics?.complexity inside
calculateProjectMetrics. The elements of result.files are FileInfo
records, which have no metrics property, so the access always yields
undefined. -/
def fileInfoMetricsComplexity (_f : FileInfo) : Option ℚ := none

/-- JavaScript addition of a number and a possibly-undefined value:
adding undefined gives NaN, embedded as none. -/
def jsAddOpt (x : ℚ) (y : Option ℚ) : Option ℚ :=
  y.map (fun q => x + q)

/-- JavaScript (v || 0): NaN (none) and 0 are falsy and give 0. -/
def jsOrZero : Option ℚ → ℚ
  | none => 0
  | some q => if q = 0 then 0 else q

/-- AnalysisService.calculateProjectMetrics. The reduce step is
(sum + f.metrics?.complexity) || 0 with the JavaScript precedence, so
each step that reads an absent metrics field resets the accumulator to
zero. -/
def calculateProjectMetrics (result : AnalysisResult) : ProjectMetrics :=
  let totalLines := result.files.foldl (fun sum f => sum + f.linesOfCode) 0
  let totalIssues := result.issues.length
  let avgComplexity : ℚ :=
    if result.files.length > 0 then
      (result.files.foldl
        (fun sum f => jsOrZero (jsAddOpt sum (fileInfoMetricsComplexity f))) 0) /
        (result.files.length : ℚ)
    else 0
  let issueWeight : ℚ := (totalIssues : ℚ) * 2
  let complexityWeight := avgComplexity * 5
  let maintainabilityIndex := max 0 (min 100 (100 - issueWeight - complexityWeight))
  let grade := calculateGrade maintainabilityIndex
  { code :=
      { totalFiles := result.files.length
        totalLines := totalLines
        codeLines := ((totalLines : ℚ) * 0.8).floor
        commentLines := ((totalLines : ℚ) * 0.1).floor
        blankLines := ((totalLines : ℚ) * 0.1).floor
        functions := 0
        classes := 0
        averageComplexity := avgComplexity }
    quality :=
      { maintainabilityIndex := maintainabilityIndex
        technicalDebt := (totalIssues : ℚ) * 5
        duplicateLines := 0
        duplicatePercentage := 0 }
    complexity :=
      { cyclomaticComplexity := avgComplexity
        cognitiveComplexity := avgComplexity * 1.2
        nestingDepth := 0
        linesOfCode := totalLines
        maintainabilityIndex := maintainabilityIndex }
    grade := grade }

/-! Specification-side definitions, written from the words of the spec
for comparison with the implementation definitions above. -/

/-- Definition following the spec words for file metrics: the
complexity metric is the mean of all complexity-finding scores in the
file, or 1 if none fired. -/
def specFileComplexity (scores : List ℚ) : ℚ :=
  if scores = [] then 1 else scores.sum / (scores.length : ℚ)

mutual
/-- Definition following the spec words for the tree walker: pre-order
depth-first visit list, children in natural left-to-right declaration
order, with non-traversable fields and nodes without a kind excluded
from child discovery. -/
def preorderSpec : ASTNode → List ASTNode
  | .mk t loc range value lc tc strs props =>
    ASTNode.mk t loc range value lc tc strs props :: preorderFields props

/-- Pre-order visit list contributed by a property list. -/
def preorderFields : List Field → List ASTNode
  | [] => []
  | .one name c :: rest =>
    (if ignoreKeys.contains name then []
     else if c.ntype ≠ "" then preorderSpec c else []) ++ preorderFields rest
  | .many name cs :: rest =>
    (if ignoreKeys.contains name then [] else preorderArray cs) ++
      preorderFields rest

/-- Pre-order visit list contributed by an array-valued property. -/
def preorderArray : List ASTNode → List ASTNode
  | [] => []
  | c :: rest => (if c.ntype ≠ "" then preorderSpec c else []) ++ preorderArray rest
end

/-- A visitor that records every visited node in order and never
requests a subtree skip. -/
def recordVisitor : Visitor (List ASTNode) where
  entries := fun _ => some (.fn fun n _ _ visited => (visited ++ [n], false))
  wildcard := none

/-- The visit order of traverse under the recording visitor. -/
def traverseTrace (t : ASTNode) : List ASTNode :=
  traverse recordVisitor t none [] []

/-- Enter and exit callback events, used to observe the traversal. -/
inductive VisitEvent where
  | enter (n : ASTNode)
  | exit (n : ASTNode)

/-- A visitor whose entry for the given kind is an enter/exit hook pair
where the enter callback records its event and returns false, and whose
entries for all other kinds are plain recording callbacks. -/
def skipVisitor (kind : String) : Visitor (List VisitEvent) where
  entries := fun ty =>
    if ty = kind then
      some (.hooks
        (some fun n _ _ events => (events ++ [.enter n], true))
        (some fun n _ _ events => (events ++ [.exit n], false)))
    else some (.fn fun n _ _ events => (events ++ [.enter n], false))
  wildcard := none

/-- The event list of traverse under the skip visitor. -/
def skipTrace (kind : String) (t : ASTNode) : List VisitEvent :=
  traverse (skipVisitor kind) t none [] []

mutual
/-- Definition following the spec words for subtree skipping: the
pre-order enter events, except that a node of the skipped kind
contributes its enter event followed immediately by its exit event,
with none of its descendants visited. -/
def skipTraceSpec (kind : String) : ASTNode → List VisitEvent
  | .mk t loc range value lc tc strs props =>
    let n := ASTNode.mk t loc range value lc tc strs props
    if t = kind then [.enter n, .exit n]
    else .enter n :: skipTraceFields kind props

/-- Skip-trace events contributed by a property list. -/
def skipTraceFields (kind : String) : List Field → List VisitEvent
  | [] => []
  | .one name c :: rest =>
    (if ignoreKeys.contains name then []
     else if c.ntype ≠ "" then skipTraceSpec kind c else []) ++
      skipTraceFields kind rest
  | .many name cs :: rest =>
    (if ignoreKeys.contains name then [] else skipTraceArray kind cs) ++
      skipTraceFields kind rest

/-- Skip-trace events contributed by an array-valued property. -/
def skipTraceArray (kind : String) : List ASTNode → List VisitEvent
  | [] => []
  | c :: rest =>
    (if c.ntype ≠ "" then skipTraceSpec kind c else []) ++ skipTraceArray kind rest
end

/-! Concrete input trees for the scenario claims. -/

/-- Build a node with the given kind, properties, string attributes and
literal value; spans, ranges and comments default to absent. -/
def mkNode (ntype : String) (props : List Field := [])
    (strs : List (String × String) := []) (value : Option JSVal := none)
    (loc : Option SourceRange := none) : ASTNode :=
  .mk ntype loc none value none none strs props

/-- An identifier node. -/
def identNode (name : String) : ASTNode :=
  mkNode "Identifier" [] [("name", name)]

/-- A string literal node. -/
def strLitNode (s : String) : ASTNode :=
  mkNode "StringLiteral" [] [] (some (.vstr s))

/-- An empty block statement. -/
def emptyBlock : ASTNode :=
  mkNode "BlockStatement" [.many "body" []]

/-- An if statement with the given consequent and a plain identifier
test. -/
def ifStatement (consequent : ASTNode) : ASTNode :=
  mkNode "IfStatement" [.one "test" (identNode "cond"), .one "consequent" consequent]

/-- A function declaration named f whose body holds the given
statements. -/
def functionWithBody (stmts : List ASTNode) : ASTNode :=
  mkNode "FunctionDeclaration"
    [.one "id" (identNode "f"), .many "params" [],
     .one "body" (mkNode "BlockStatement" [.many "body" stmts])]

/-- A function body with n consecutive, non-nested if statements. -/
def flatIfsFunction (n : Nat) : ASTNode :=
  functionWithBody (List.replicate n (ifStatement emptyBlock))

/-- n fully nested if statements (an empty block at depth zero). -/
def nestedIfs : Nat → ASTNode
  | 0 => emptyBlock
  | n + 1 => ifStatement (mkNode "BlockStatement" [.many "body" [nestedIfs n]])

/-- A function body with n fully nested if statements. -/
def nestedIfsFunction (n : Nat) : ASTNode :=
  functionWithBody [nestedIfs n]

/-- The source text of the SQL injection scenario. -/
def sqlSource : String :=
  "db.query(\"SELECT * FROM users WHERE id = \" + userId);"

/-- The concatenation expression of the scenario. -/
def sqlConcatExpr : ASTNode :=
  mkNode "BinaryExpression"
    [.one "left" (strLitNode "SELECT * FROM users WHERE id = "),
     .one "right" (identNode "userId")]
    [("operator", "+")]

/-- The call db.query(concatenation) of the scenario. -/
def sqlCallExpr : ASTNode :=
  mkNode "CallExpression"
    [.one "callee" (mkNode "MemberExpression"
        [.one "object" (identNode "db"), .one "property" (identNode "query")]),
     .many "arguments" [sqlConcatExpr]]

/-- The program of the SQL injection scenario. -/
def sqlAst : ASTNode :=
  mkNode "Program"
    [.many "body" [mkNode "ExpressionStatement" [.one "expression" sqlCallExpr]]]

/-- A program declaring const unusedVar = 1 with no other reference to
the name. -/
def unusedVarAst : ASTNode :=
  mkNode "Program"
    [.many "body" [
      mkNode "VariableDeclaration"
        [.many "declarations" [
          mkNode "VariableDeclarator"
            [.one "id" (identNode "unusedVar"),
             .one "init" (mkNode "Literal" [] [] (some (.vnum 1)))]]]
        [("kind", "const")]]]

/-! Lemmas about the traversals. -/

mutual
/-- The nesting-depth visitor registers its hooks under the wildcard
key as an object, which traverse never invokes, and registers no
per-kind entry; the traversal therefore leaves the state untouched. -/
theorem traverse_nesting_id : ∀ (n : ASTNode) (p : Option ASTNode)
    (path : List String) (s : Int × Int),
    traverse nestingVisitor n p path s = s
  | .mk t loc range value lc tc strs props, p, path, s => by
    rw [traverse.eq_1]
    simp only [nestingVisitor]
    exact traverseChildren_nesting_id props _ _ _

theorem traverseChildren_nesting_id : ∀ (fs : List Field) (parent : ASTNode)
    (path : List String) (s : Int × Int),
    traverseChildren nestingVisitor parent fs path s = s
  | [], _, _, _ => rfl
  | .one name c :: rest, parent, path, s => by
    rw [traverseChildren.eq_2]
    rw [traverse_nesting_id c (some parent) path s]
    simp only [ite_self]
    exact traverseChildren_nesting_id rest parent path s
  | .many name cs :: rest, parent, path, s => by
    rw [traverseChildren.eq_3]
    rw [traverseArray_nesting_id cs parent path s]
    simp only [ite_self]
    exact traverseChildren_nesting_id rest parent path s

theorem traverseArray_nesting_id : ∀ (cs : List ASTNode) (parent : ASTNode)
    (path : List String) (s : Int × Int),
    traverseArray nestingVisitor parent cs path s = s
  | [], _, _, _ => rfl
  | c :: rest, parent, path, s => by
    rw [traverseArray.eq_2]
    rw [traverse_nesting_id c (some parent) path s]
    simp only [ite_self]
    exact traverseArray_nesting_id rest parent path s
end

mutual
/-- No node of the tree is a logical expression. -/
def noLogical : ASTNode → Bool
  | .mk t _ _ _ _ _ _ props => (t != "LogicalExpression") && noLogicalFields props

def noLogicalFields : List Field → Bool
  | [] => true
  | .one _ c :: rest => noLogical c && noLogicalFields rest
  | .many _ cs :: rest => noLogicalArray cs && noLogicalFields rest

def noLogicalArray : List ASTNode → Bool
  | [] => true
  | c :: rest => noLogical c && noLogicalArray rest
end

mutual
/-- The cognitive-complexity visitor registers its nesting hooks under
the wildcard key as an object, which traverse never invokes; its only
per-kind entry is for logical expressions, so on a tree without logical
expressions the traversal leaves the state untouched. -/
theorem traverse_cognitive_id : ∀ (n : ASTNode) (p : Option ASTNode)
    (path : List String) (s : Int × Int), noLogical n = true →
    traverse cognitiveVisitor n p path s = s
  | .mk t loc range value lc tc strs props, p, path, s => by
    intro h
    rw [noLogical.eq_1] at h
    simp only [Bool.and_eq_true, bne_iff_ne, ne_eq] at h
    obtain ⟨ht, hf⟩ := h
    rw [traverse.eq_1]
    simp only [cognitiveVisitor, if_neg ht]
    exact traverseChildren_cognitive_id props _ _ _ hf

theorem traverseChildren_cognitive_id : ∀ (fs : List Field) (parent : ASTNode)
    (path : List String) (s : Int × Int), noLogicalFields fs = true →
    traverseChildren cognitiveVisitor parent fs path s = s
  | [], _, _, _ => fun _ => rfl
  | .one name c :: rest, parent, path, s => by
    intro h
    rw [noLogicalFields.eq_2] at h
    simp only [Bool.and_eq_true] at h
    rw [traverseChildren.eq_2]
    rw [traverse_cognitive_id c (some parent) path s h.1]
    simp only [ite_self]
    exact traverseChildren_cognitive_id rest parent path s h.2
  | .many name cs :: rest, parent, path, s => by
    intro h
    rw [noLogicalFields.eq_3] at h
    simp only [Bool.and_eq_true] at h
    rw [traverseChildren.eq_3]
    rw [traverseArray_cognitive_id cs parent path s h.1]
    simp only [ite_self]
    exact traverseChildren_cognitive_id rest parent path s h.2

theorem traverseArray_cognitive_id : ∀ (cs : List ASTNode) (parent : ASTNode)
    (path : List String) (s : Int × Int), noLogicalArray cs = true →
    traverseArray cognitiveVisitor parent cs path s = s
  | [], _, _, _ => fun _ => rfl
  | c :: rest, parent, path, s => by
    intro h
    rw [noLogicalArray.eq_2] at h
    simp only [Bool.and_eq_true] at h
    rw [traverseArray.eq_2]
    rw [traverse_cognitive_id c (some parent) path s h.1]
    simp only [ite_self]
    exact traverseArray_cognitive_id rest parent path s h.2
end

/-- The nested-if towers contain no logical expression. -/
theorem noLogical_nestedIfs : ∀ n : Nat, noLogical (nestedIfs n) = true
  | 0 => by decide
  | n + 1 => by
    rw [nestedIfs]
    simp only [ifStatement, mkNode, identNode, noLogical, noLogicalFields,
      noLogicalArray, noLogical_nestedIfs n]
    decide

/-- Replicated if statements contain no logical expression. -/
theorem noLogicalArray_replicate : ∀ n : Nat,
    noLogicalArray (List.replicate n (ifStatement emptyBlock)) = true
  | 0 => by decide
  | n + 1 => by
    rw [List.replicate_succ, noLogicalArray.eq_2]
    rw [noLogicalArray_replicate n]
    decide

/-- The flat-if function bodies contain no logical expression. -/
theorem noLogical_flatIfsFunction (n : Nat) :
    noLogical (flatIfsFunction n) = true := by
  simp only [flatIfsFunction, functionWithBody, mkNode, identNode, noLogical,
    noLogicalFields, noLogicalArray, noLogicalArray_replicate n]
  decide

/-- The nested-if function bodies contain no logical expression. -/
theorem noLogical_nestedIfsFunction (n : Nat) :
    noLogical (nestedIfsFunction n) = true := by
  simp only [nestedIfsFunction, functionWithBody, mkNode, identNode, noLogical,
    noLogicalFields, noLogicalArray, noLogical_nestedIfs n]
  decide

/-- The kind tag of a nested-if tower is never empty. -/
theorem nestedIfs_ntype_ne_empty : ∀ n : Nat, (nestedIfs n).ntype ≠ ""
  | 0 => by decide
  | n + 1 => by
    rw [nestedIfs]
    simp [ifStatement, mkNode]

/-- Entry lookups of the cyclomatic visitor at the node kinds of the
scenario trees, kept as rewrite rules so that the visitor constant
stays folded during the step proofs. -/
theorem cycloEntries_IfStatement :
    cyclomaticVisitor.entries "IfStatement" = cyclomaticIncrement := rfl

theorem cycloEntries_BlockStatement :
    cyclomaticVisitor.entries "BlockStatement" = none := rfl

theorem cycloEntries_Identifier :
    cyclomaticVisitor.entries "Identifier" = none := rfl

theorem cycloEntries_FunctionDeclaration :
    cyclomaticVisitor.entries "FunctionDeclaration" = none := rfl

theorem cycloWildcard : cyclomaticVisitor.wildcard = none := rfl

/-- The kind tag of an identifier node. -/
@[simp]
theorem identNode_ntype (s : String) : (identNode s).ntype = "Identifier" := rfl

/-- The kind tag of the empty block. -/
@[simp]
theorem emptyBlock_ntype : emptyBlock.ntype = "BlockStatement" := rfl

/-- Traversing the test identifier adds nothing to the cyclomatic
count. -/
theorem cyclo_traverse_ident {s : String} (p : Option ASTNode) (path : List String) (c : Int) :
    traverse cyclomaticVisitor (identNode s) p path c = c := by
  simp [identNode, mkNode, traverse.eq_1, traverseChildren.eq_1,
    cycloEntries_Identifier, cycloWildcard]

/-- Traversing the empty block adds nothing to the cyclomatic count. -/
theorem cyclo_traverse_emptyBlock (p : Option ASTNode) (path : List String) (c : Int) :
    traverse cyclomaticVisitor emptyBlock p path c = c := by
  simp [emptyBlock, mkNode, traverse.eq_1, traverseChildren.eq_1,
    traverseChildren.eq_3, traverseArray.eq_1,
    cycloEntries_BlockStatement, cycloWildcard, ignoreKeys]

/-- Each level of the nested-if tower adds exactly one decision point
to the cyclomatic count. -/
theorem cyclo_traverse_nestedIfs : ∀ (n : Nat) (p : Option ASTNode)
    (path : List String) (c : Int),
    traverse cyclomaticVisitor (nestedIfs n) p path c = c + n
  | 0, p, path, c => by
    rw [nestedIfs]
    rw [cyclo_traverse_emptyBlock p path c]
    simp
  | n + 1, p, path, c => by
    rw [nestedIfs]
    simp only [ifStatement, mkNode]
    simp [traverse.eq_1, traverseChildren.eq_1, traverseChildren.eq_2,
      traverseChildren.eq_3, traverseArray.eq_1, traverseArray.eq_2,
      cycloEntries_IfStatement, cycloEntries_BlockStatement, cycloWildcard,
      cyclomaticIncrement, ignoreKeys,
      nestedIfs_ntype_ne_empty n, cyclo_traverse_nestedIfs n,
      cyclo_traverse_ident]
    ring

/-- The cyclomatic complexity of the function holding an n-deep nested
if tower is 1 + n. -/
theorem cyclo_nestedIfsFunction (n : Nat) :
    calculateCyclomaticComplexity (nestedIfsFunction n) = 1 + n := by
  rw [calculateCyclomaticComplexity]
  rw [nestedIfsFunction, functionWithBody]
  simp only [mkNode]
  simp [traverse.eq_1, traverseChildren.eq_1, traverseChildren.eq_2,
    traverseChildren.eq_3, traverseArray.eq_1, traverseArray.eq_2,
    cycloEntries_FunctionDeclaration, cycloEntries_BlockStatement, cycloWildcard,
    ignoreKeys, nestedIfs_ntype_ne_empty n, cyclo_traverse_nestedIfs n,
    cyclo_traverse_ident]

/-- The cognitive complexity the analyzer computes is zero on any tree
without logical expressions, in particular on every if-only function
body: the nesting increments sit on an object-form wildcard entry that
traverse never invokes. -/
theorem cognitive_eq_zero_of_noLogical (t : ASTNode) (h : noLogical t = true) :
    calculateCognitiveComplexity t = 0 := by
  rw [calculateCognitiveComplexity, traverse_cognitive_id t none [] (0, 0) h]

/-- The nesting depth the analyzer computes is zero on every tree: the
depth hooks sit on an object-form wildcard entry that traverse never
invokes. -/
theorem nestingDepth_eq_zero (t : ASTNode) : calculateNestingDepth t = 0 := by
  rw [calculateNestingDepth, traverse_nesting_id t none [] (0, 0)]

/-- Entry lookups of the recording and skipping visitors, kept folded
as rewrite rules. -/
theorem recordEntries (ty : String) : recordVisitor.entries ty =
    some (.fn fun n _ _ visited => (visited ++ [n], false)) := rfl

theorem recordWildcard : recordVisitor.wildcard = none := rfl

theorem skipEntries_eq (kind : String) : (skipVisitor kind).entries kind =
    some (.hooks
      (some fun n _ _ events => (events ++ [.enter n], true))
      (some fun n _ _ events => (events ++ [.exit n], false))) := by
  simp [skipVisitor]

theorem skipEntries_ne (kind ty : String) (h : ¬(ty = kind)) :
    (skipVisitor kind).entries ty =
      some (.fn fun n _ _ events => (events ++ [.enter n], false)) := by
  simp [skipVisitor, h]

theorem skipWildcard (kind : String) : (skipVisitor kind).wildcard = none := rfl

mutual
/-- Under the recording visitor, traverse appends exactly the pre-order
visit list of the tree to the state. -/
theorem traverse_record : ∀ (n : ASTNode) (p : Option ASTNode)
    (path : List String) (s : List ASTNode),
    traverse recordVisitor n p path s = s ++ preorderSpec n
  | .mk t loc range value lc tc strs props, p, path, s => by
    rw [traverse.eq_1, preorderSpec.eq_1]
    simp only [recordEntries, recordWildcard]
    rw [traverseChildren_record props _ _ _]
    simp

theorem traverseChildren_record : ∀ (fs : List Field) (parent : ASTNode)
    (path : List String) (s : List ASTNode),
    traverseChildren recordVisitor parent fs path s = s ++ preorderFields fs
  | [], _, _, s => by simp [traverseChildren.eq_1, preorderFields.eq_1]
  | .one name c :: rest, parent, path, s => by
    rw [traverseChildren.eq_2, preorderFields.eq_2]
    by_cases hik : name ∈ ignoreKeys
    · rw [traverseChildren_record rest parent path _]
      simp [hik]
    · by_cases ht : c.ntype = ""
      · rw [traverseChildren_record rest parent path _]
        simp [hik, ht]
      · rw [traverse_record c (some parent) path s]
        rw [traverseChildren_record rest parent path _]
        simp [hik, ht]
  | .many name cs :: rest, parent, path, s => by
    rw [traverseChildren.eq_3, preorderFields.eq_3]
    by_cases hik : name ∈ ignoreKeys
    · rw [traverseChildren_record rest parent path _]
      simp [hik]
    · rw [traverseArray_record cs parent path s]
      rw [traverseChildren_record rest parent path _]
      simp [hik]

theorem traverseArray_record : ∀ (cs : List ASTNode) (parent : ASTNode)
    (path : List String) (s : List ASTNode),
    traverseArray recordVisitor parent cs path s = s ++ preorderArray cs
  | [], _, _, s => by simp [traverseArray.eq_1, preorderArray.eq_1]
  | c :: rest, parent, path, s => by
    rw [traverseArray.eq_2, preorderArray.eq_2]
    by_cases ht : c.ntype = ""
    · rw [traverseArray_record rest parent path _]
      simp [ht]
    · rw [traverse_record c (some parent) path s]
      rw [traverseArray_record rest parent path _]
      simp [ht]
end

mutual
/-- Under the skip visitor for a kind, traverse appends exactly the
skip trace of the spec: nodes of the skipped kind contribute their
enter event and exit event with no descendant events in between. -/
theorem traverse_skip : ∀ (kind : String) (n : ASTNode) (p : Option ASTNode)
    (path : List String) (s : List VisitEvent),
    traverse (skipVisitor kind) n p path s = s ++ skipTraceSpec kind n
  | kind, .mk t loc range value lc tc strs props, p, path, s => by
    rw [traverse.eq_1, skipTraceSpec.eq_1]
    by_cases hk : t = kind
    · subst hk
      simp only [skipEntries_eq, skipWildcard]
      simp
    · rw [skipEntries_ne kind t hk]
      simp only [skipWildcard]
      rw [traverseChildren_skip kind props _ _ _]
      simp [hk]

theorem traverseChildren_skip : ∀ (kind : String) (fs : List Field)
    (parent : ASTNode) (path : List String) (s : List VisitEvent),
    traverseChildren (skipVisitor kind) parent fs path s =
      s ++ skipTraceFields kind fs
  | kind, [], _, _, s => by simp [traverseChildren.eq_1, skipTraceFields.eq_1]
  | kind, .one name c :: rest, parent, path, s => by
    rw [traverseChildren.eq_2, skipTraceFields.eq_2]
    by_cases hik : name ∈ ignoreKeys
    · rw [traverseChildren_skip kind rest parent path _]
      simp [hik]
    · by_cases ht : c.ntype = ""
      · rw [traverseChildren_skip kind rest parent path _]
        simp [hik, ht]
      · rw [traverse_skip kind c (some parent) path s]
        rw [traverseChildren_skip kind rest parent path _]
        simp [hik, ht]
  | kind, .many name cs :: rest, parent, path, s => by
    rw [traverseChildren.eq_3, skipTraceFields.eq_3]
    by_cases hik : name ∈ ignoreKeys
    · rw [traverseChildren_skip kind rest parent path _]
      simp [hik]
    · rw [traverseArray_skip kind cs parent path s]
      rw [traverseChildren_skip kind rest parent path _]
      simp [hik]

theorem traverseArray_skip : ∀ (kind : String) (cs : List ASTNode)
    (parent : ASTNode) (path : List String) (s : List VisitEvent),
    traverseArray (skipVisitor kind) parent cs path s =
      s ++ skipTraceArray kind cs
  | kind, [], _, _, s => by simp [traverseArray.eq_1, skipTraceArray.eq_1]
  | kind, c :: rest, parent, path, s => by
    rw [traverseArray.eq_2, skipTraceArray.eq_2]
    by_cases ht : c.ntype = ""
    · rw [traverseArray_skip kind rest parent path _]
      simp [ht]
    · rw [traverse_skip kind c (some parent) path s]
      rw [traverseArray_skip kind rest parent path _]
      simp [ht]
end

/-- A present, non-empty optional string field. -/
def nonEmptyOptStr : Option String → Bool
  | some s => s ≠ ""
  | none => false

/-- The security taxonomy invariant: the finding carries a present,
non-empty vulnerability name, CWE identifier and OWASP bucket. -/
def securityTagged (i : Issue) : Bool :=
  nonEmptyOptStr i.vulnerability && nonEmptyOptStr i.cwe && nonEmptyOptStr i.owasp

/-- Appending one tagged issue preserves the invariant. -/
theorem all_append_tagged (issues : List Issue) (i : Issue)
    (h : issues.all securityTagged = true) (hi : securityTagged i = true) :
    (issues ++ [i]).all securityTagged = true := by
  simp [List.all_append, h, hi]

theorem tagged_checkSQLInjectionInExpression (node : ASTNode) (fp src : String)
    (issues : List Issue) (h : issues.all securityTagged = true) :
    (checkSQLInjectionInExpression node fp src issues).all securityTagged = true := by
  unfold checkSQLInjectionInExpression
  dsimp only
  repeat' split
  all_goals
    first
    | exact h
    | simp [List.all_append, h, securityTagged, nonEmptyOptStr,
        withSQLInjectionTaxonomy, createIssue]

theorem tagged_checkSQLInjection (node : ASTNode) (fp src : String)
    (issues : List Issue) (h : issues.all securityTagged = true) :
    (checkSQLInjection node fp src issues).all securityTagged = true := by
  unfold checkSQLInjection
  dsimp only
  repeat' split
  all_goals
    first
    | exact h
    | simp [List.all_append, h, securityTagged, nonEmptyOptStr,
        withSQLInjectionTaxonomy, createIssue]

theorem tagged_checkCommandInjection (node : ASTNode) (fp src : String)
    (issues : List Issue) (h : issues.all securityTagged = true) :
    (checkCommandInjection node fp src issues).all securityTagged = true := by
  unfold checkCommandInjection
  dsimp only
  repeat' split
  all_goals
    first
    | exact h
    | simp [List.all_append, h, securityTagged, nonEmptyOptStr,
        withSQLInjectionTaxonomy, createIssue]

theorem tagged_checkXSS (node : ASTNode) (fp src : String)
    (issues : List Issue) (h : issues.all securityTagged = true) :
    (checkXSS node fp src issues).all securityTagged = true := by
  unfold checkXSS
  dsimp only
  repeat' split
  all_goals
    first
    | exact h
    | simp [List.all_append, h, securityTagged, nonEmptyOptStr,
        withSQLInjectionTaxonomy, createIssue]

theorem tagged_checkHardcodedSecrets (node : ASTNode) (fp src : String)
    (issues : List Issue) (h : issues.all securityTagged = true) :
    (checkHardcodedSecrets node fp src issues).all securityTagged = true := by
  unfold checkHardcodedSecrets
  dsimp only
  repeat' split
  all_goals
    first
    | exact h
    | simp [List.all_append, h, securityTagged, nonEmptyOptStr,
        withSQLInjectionTaxonomy, createIssue]

theorem tagged_checkDangerousFunctions (node : ASTNode) (fp src : String)
    (issues : List Issue) (h : issues.all securityTagged = true) :
    (checkDangerousFunctions node fp src issues).all securityTagged = true := by
  unfold checkDangerousFunctions
  dsimp only
  repeat' split
  all_goals
    first
    | exact h
    | simp [List.all_append, h, securityTagged, nonEmptyOptStr,
        withSQLInjectionTaxonomy, createIssue]

/-- Entry lookups of the security visitor, kept folded as rewrite
rules. -/
theorem secEntries_Call (fp src : String) :
    (securityVisitor fp src).entries "CallExpression" =
      some (.fn fun node _ _ issues =>
        (checkCommandInjection node fp src
          (checkSQLInjection node fp src issues), false)) := rfl

theorem secEntries_Binary (fp src : String) :
    (securityVisitor fp src).entries "BinaryExpression" =
      some (.fn fun node _ _ issues =>
        (checkSQLInjectionInExpression node fp src issues, false)) := rfl

theorem secEntries_JSX (fp src : String) :
    (securityVisitor fp src).entries "JSXAttribute" =
      some (.fn fun node _ _ issues => (checkXSS node fp src issues, false)) := rfl

theorem secEntries_StringLiteral (fp src : String) :
    (securityVisitor fp src).entries "StringLiteral" =
      some (.fn fun node _ _ issues =>
        (checkHardcodedSecrets node fp src issues, false)) := rfl

theorem secEntries_Literal (fp src : String) :
    (securityVisitor fp src).entries "Literal" =
      some (.fn fun node _ _ issues =>
        (checkHardcodedSecrets node fp src issues, false)) := rfl

theorem secEntries_Identifier (fp src : String) :
    (securityVisitor fp src).entries "Identifier" =
      some (.fn fun node _ _ issues =>
        (checkDangerousFunctions node fp src issues, false)) := rfl

theorem secEntries_none (fp src ty : String)
    (h1 : ¬(ty = "CallExpression")) (h2 : ¬(ty = "BinaryExpression"))
    (h3 : ¬(ty = "JSXAttribute")) (h4 : ¬(ty = "StringLiteral"))
    (h5 : ¬(ty = "Literal")) (h6 : ¬(ty = "Identifier")) :
    (securityVisitor fp src).entries ty = none := by
  simp [securityVisitor, h1, h2, h3, h4, h5, h6]

theorem secWildcard (fp src : String) :
    (securityVisitor fp src).wildcard = none := rfl

mutual
/-- Every issue the security traversal adds to the state carries the
security taxonomy fields. -/
theorem traverse_sec_tagged : ∀ (fp src : String) (n : ASTNode)
    (p : Option ASTNode) (path : List String) (s : List Issue),
    s.all securityTagged = true →
    (traverse (securityVisitor fp src) n p path s).all securityTagged = true
  | fp, src, .mk t loc range value lc tc strs props, p, path, s => fun h => by
    rw [traverse.eq_1]
    by_cases h1 : t = "CallExpression"
    · subst h1
      simp only [secEntries_Call, secWildcard]
      exact traverseChildren_sec_tagged fp src props _ _ _
        (tagged_checkCommandInjection _ _ _ _
          (tagged_checkSQLInjection _ _ _ _ h))
    · by_cases h2 : t = "BinaryExpression"
      · subst h2
        simp only [secEntries_Binary, secWildcard]
        exact traverseChildren_sec_tagged fp src props _ _ _
          (tagged_checkSQLInjectionInExpression _ _ _ _ h)
      · by_cases h3 : t = "JSXAttribute"
        · subst h3
          simp only [secEntries_JSX, secWildcard]
          exact traverseChildren_sec_tagged fp src props _ _ _
            (tagged_checkXSS _ _ _ _ h)
        · by_cases h4 : t = "StringLiteral"
          · subst h4
            simp only [secEntries_StringLiteral, secWildcard]
            exact traverseChildren_sec_tagged fp src props _ _ _
              (tagged_checkHardcodedSecrets _ _ _ _ h)
          · by_cases h5 : t = "Literal"
            · subst h5
              simp only [secEntries_Literal, secWildcard]
              exact traverseChildren_sec_tagged fp src props _ _ _
                (tagged_checkHardcodedSecrets _ _ _ _ h)
            · by_cases h6 : t = "Identifier"
              · subst h6
                simp only [secEntries_Identifier, secWildcard]
                exact traverseChildren_sec_tagged fp src props _ _ _
                  (tagged_checkDangerousFunctions _ _ _ _ h)
              · rw [secEntries_none fp src t h1 h2 h3 h4 h5 h6]
                simp only [secWildcard]
                exact traverseChildren_sec_tagged fp src props _ _ _ h

theorem traverseChildren_sec_tagged : ∀ (fp src : String) (fs : List Field)
    (parent : ASTNode) (path : List String) (s : List Issue),
    s.all securityTagged = true →
    (traverseChildren (securityVisitor fp src) parent fs path s).all
      securityTagged = true
  | fp, src, [], _, _, s => fun h => by rw [traverseChildren.eq_1]; exact h
  | fp, src, .one name c :: rest, parent, path, s => fun h => by
    rw [traverseChildren.eq_2]
    by_cases hik : ignoreKeys.contains name = true
    · rw [if_pos hik]
      exact traverseChildren_sec_tagged fp src rest parent path _ h
    · rw [if_neg hik]
      by_cases ht : c.ntype ≠ ""
      · rw [if_pos ht]
        exact traverseChildren_sec_tagged fp src rest parent path _
          (traverse_sec_tagged fp src c (some parent) path s h)
      · rw [if_neg ht]
        exact traverseChildren_sec_tagged fp src rest parent path _ h
  | fp, src, .many name cs :: rest, parent, path, s => fun h => by
    rw [traverseChildren.eq_3]
    by_cases hik : ignoreKeys.contains name = true
    · rw [if_pos hik]
      exact traverseChildren_sec_tagged fp src rest parent path _ h
    · rw [if_neg hik]
      exact traverseChildren_sec_tagged fp src rest parent path _
        (traverseArray_sec_tagged fp src cs parent path s h)

theorem traverseArray_sec_tagged : ∀ (fp src : String) (cs : List ASTNode)
    (parent : ASTNode) (path : List String) (s : List Issue),
    s.all securityTagged = true →
    (traverseArray (securityVisitor fp src) parent cs path s).all
      securityTagged = true
  | fp, src, [], _, _, s => fun h => by rw [traverseArray.eq_1]; exact h
  | fp, src, c :: rest, parent, path, s => fun h => by
    rw [traverseArray.eq_2]
    by_cases ht : c.ntype ≠ ""
    · rw [if_pos ht]
      exact traverseArray_sec_tagged fp src rest parent path _
        (traverse_sec_tagged fp src c (some parent) path s h)
    · rw [if_neg ht]
      exact traverseArray_sec_tagged fp src rest parent path _ h
end

/-- The analyzer loop with an arbitrary accumulated issue list. -/
theorem runAnalyzers_go : ∀ (outcomes : List AnalyzerOutcome) (acc : List Issue),
    List.foldl
      (fun issues outcome =>
        match outcome with
        | .ok analyzerIssues => issues ++ analyzerIssues
        | .error _ => issues) acc outcomes
      = acc ++ runAnalyzers outcomes
  | [], acc => by simp [runAnalyzers]
  | .ok l :: rest, acc => by
    simp only [runAnalyzers, List.foldl_cons]
    rw [runAnalyzers_go rest (acc ++ l), runAnalyzers_go rest ([] ++ l)]
    simp
  | .error e :: rest, acc => by
    simp only [runAnalyzers, List.foldl_cons]
    rw [runAnalyzers_go rest acc, runAnalyzers_go rest []]
    simp

/-- The merged issue list splits over analyzer batches. -/
theorem runAnalyzers_append (l1 l2 : List AnalyzerOutcome) :
    runAnalyzers (l1 ++ l2) = runAnalyzers l1 ++ runAnalyzers l2 := by
  unfold runAnalyzers
  rw [List.foldl_append]
  exact runAnalyzers_go l2 _

/-- One successful analyzer contributes its issues in order. -/
theorem runAnalyzers_cons_ok (l : List Issue) (rest : List AnalyzerOutcome) :
    runAnalyzers (Except.ok l :: rest) = l ++ runAnalyzers rest := by
  unfold runAnalyzers
  rw [List.foldl_cons]
  exact runAnalyzers_go rest _

/-- One throwing analyzer contributes nothing. -/
theorem runAnalyzers_cons_err (e : String) (rest : List AnalyzerOutcome) :
    runAnalyzers (Except.error e :: rest) = runAnalyzers rest := by
  unfold runAnalyzers
  rw [List.foldl_cons]

/-- Folding the complexity scores equals summing the mapped scores. -/
theorem foldl_scores : ∀ (l : List Issue) (a : ℚ),
    List.foldl (fun sum i => sum + i.complexityScore.getD 0) a l =
      a + (l.map (fun i => i.complexityScore.getD 0)).sum
  | [], a => by simp
  | i :: rest, a => by
    simp only [List.foldl_cons, List.map_cons, List.sum_cons]
    rw [foldl_scores rest (a + i.complexityScore.getD 0)]
    ring

/-- The file metrics of a file with zero findings. -/
theorem calculateFileMetrics_no_issues (pr : ParseResult) :
    calculateFileMetrics pr [] =
      { complexity := 1, maintainability := 98,
        linesOfCode := (pr.sourceCode.splitOn "\n").length } := by
  unfold calculateFileMetrics
  norm_num

/-- The average-complexity fold of calculateProjectMetrics collapses to
zero on every file list: each step adds an absent metrics field, which
yields NaN, and the or-zero guard resets the accumulator. -/
theorem projectFold_zero : ∀ (files : List FileInfo),
    List.foldl
      (fun sum f => jsOrZero (jsAddOpt sum (fileInfoMetricsComplexity f))) 0 files
      = 0
  | [] => rfl
  | f :: rest => by
    rw [List.foldl_cons]
    exact projectFold_zero rest

/-- Function nodes built by the scenario helpers carry no source
span. -/
@[simp]
theorem functionWithBody_loc (stmts : List ASTNode) :
    (functionWithBody stmts).loc = none := rfl

/-- A parse result with empty source, used by the zero-findings
scenario. -/
def emptyParseResult : ParseResult :=
  { language := "javascript", sourceCode := "", filePath := "empty.js" }

/-! Claim theorems. -/

/-- C1: the claim states that cognitive complexity scores N for N flat
if statements and N(N+1)/2 for N nested if statements. The code
computes 0 in both cases, for every N: calculateCognitiveComplexity
registers its nesting-aware increments as an enter/exit object under
the wildcard key, and ASTTraverser.traverse only invokes a wildcard
entry that is a plain function, so only the logical-operator entry can
ever add to the score. -/
theorem c1_cognitive_complexity_zero_on_if_trees :
    ∀ N : Nat,
      calculateCognitiveComplexity (flatIfsFunction N) = 0 ∧
      calculateCognitiveComplexity (nestedIfsFunction N) = 0 :=
  fun N =>
    ⟨cognitive_eq_zero_of_noLogical _ (noLogical_flatIfsFunction N),
     cognitive_eq_zero_of_noLogical _ (noLogical_nestedIfsFunction N)⟩

/-- C2 counterexample: a file with zero findings has maintainability
98, not 100: the default complexity 1 is charged twice by the
maintainability formula. -/
theorem c2_zero_findings_maintainability_ne_100 :
    (calculateFileMetrics emptyParseResult []).maintainability ≠ 100 := by
  rw [calculateFileMetrics_no_issues]
  norm_num

/-- C2 amended: for every file, the complexity metric is the mean of
the scores of the complexity-category findings (1 if none fired) and
maintainability = max(0, 100 − 2·count − 2·complexity); with zero
findings this gives complexity 1 and maintainability 98. -/
theorem c2_file_metrics_formula :
    (∀ (pr : ParseResult) (issues : List Issue),
      (calculateFileMetrics pr issues).complexity =
        specFileComplexity
          ((issues.filter (fun i => i.category = IssueCategory.complexity)).map
            (fun i => i.complexityScore.getD 0)) ∧
      (calculateFileMetrics pr issues).maintainability =
        max 0 (100 - 2 * (issues.length : ℚ) -
          2 * (calculateFileMetrics pr issues).complexity)) ∧
    (calculateFileMetrics emptyParseResult []).complexity = 1 ∧
    (calculateFileMetrics emptyParseResult []).maintainability = 98 := by
  refine ⟨fun pr issues => ⟨?_, ?_⟩, ?_, ?_⟩
  · unfold calculateFileMetrics specFileComplexity
    simp only
    by_cases hc : issues.filter (fun i => i.category = IssueCategory.complexity) = []
    · simp [hc]
    · rw [if_pos (by simpa [List.length_pos] using hc)]
      rw [if_neg (by simpa using hc)]
      rw [foldl_scores]
      simp
  · unfold calculateFileMetrics
    simp only
    congr 1
    ring
  · rw [calculateFileMetrics_no_issues]
  · rw [calculateFileMetrics_no_issues]

/-- C3: traverse visits every reachable node exactly once in pre-order
with children left to right (the trace of a recording visitor is the
pre-order visit list written from the spec), and an enter callback
returning false skips the whole subtree while the exit hook of that
node still fires immediately afterwards (the trace of a skipping
visitor is the spec skip trace, in which a node of the skipped kind
contributes its enter and exit events and no descendant events). -/
theorem c3_traverse_preorder_and_skip :
    (∀ t : ASTNode, traverseTrace t = preorderSpec t) ∧
    (∀ (kind : String) (t : ASTNode), skipTrace kind t = skipTraceSpec kind t) := by
  constructor
  · intro t
    unfold traverseTrace
    rw [traverse_record]
    simp
  · intro kind t
    unfold skipTrace
    rw [traverse_skip]
    simp

set_option maxHeartbeats 4000000 in
/-- C4 counterexample: on the scenario source, the Security Analyzer
produces two sql-injection findings, not exactly one: the call check
and the binary-concatenation check both fire on the same expression. -/
theorem c4_sql_scenario_not_exactly_one :
    ((securityAnalyze sqlAst "test.js" sqlSource).filter
      (fun i => i.ruleId == "sql-injection")).length ≠ 1 := by decide

set_option maxHeartbeats 4000000 in
/-- C4 amended: the scenario produces exactly two findings, both with
ruleId sql-injection, severity Error, CWE-89 and the SQL injection
vulnerability name. -/
theorem c4_sql_scenario_two_error_findings :
    ((securityAnalyze sqlAst "test.js" sqlSource).map (fun i => i.ruleId) =
      ["sql-injection", "sql-injection"]) ∧
    (securityAnalyze sqlAst "test.js" sqlSource).all
      (fun i => i.ruleId == "sql-injection" && i.severity == Severity.error &&
        i.cwe == some "CWE-89" && i.vulnerability == some "SQL Injection") =
      true := by decide

/-- C5: the claim states a function with 5 nested ifs yields one
excessive-nesting finding with score 5. The code computes nesting
depth 0 on every tree (the depth hooks sit on an object-form wildcard
entry that traverse never invokes) and emits no finding at all for the
5-nested-if function. -/
theorem c5_excessive_nesting_never_fires :
    (∀ t : ASTNode, calculateNestingDepth t = 0) ∧
    analyzeFunctionComplexity (nestedIfsFunction 5) "test.js" "" [] = [] := by
  refine ⟨nestingDepth_eq_zero, ?_⟩
  have hcy : calculateCyclomaticComplexity (nestedIfsFunction 5) = 6 := by
    rw [cyclo_nestedIfsFunction]
    norm_num
  have hco := cognitive_eq_zero_of_noLogical _ (noLogical_nestedIfsFunction 5)
  have hne := nestingDepth_eq_zero (nestedIfsFunction 5)
  unfold analyzeFunctionComplexity calculateComplexity
  rw [hcy, hco, hne]
  simp [CYCLOMATIC_THRESHOLD, COGNITIVE_THRESHOLD, NESTING_THRESHOLD,
    nestedIfsFunction]

set_option maxHeartbeats 2000000 in
/-- C6: the claim states that a declared identifier never referenced
elsewhere and not underscore-prefixed yields one unused-variable
finding. The code reports nothing for const unusedVar = 1: the
traversal of the declaration also visits the declared Identifier node,
whose handler adds the name to the used set, so every declared name is
counted as used and the check never fires. -/
theorem c6_unused_variable_never_reported :
    qualityAnalyze unusedVarAst "test.js" "const unusedVar = 1;" = [] := by
  decide

/-- C7: the coordinator loop isolates analyzer failures: a throwing
analyzer contributes zero findings while every other analyzer in the
batch still contributes, the issue lists of successful analyzers are
concatenated in the coordinator order without de-duplication, and
analyzeFile always returns a result whose issue list is that
concatenation. -/
theorem c7_coordinator_fault_isolation :
    (∀ (pre post : List AnalyzerOutcome) (e : String),
      runAnalyzers (pre ++ Except.error e :: post) =
        runAnalyzers pre ++ runAnalyzers post) ∧
    (∀ (issues : List Issue) (rest : List AnalyzerOutcome),
      runAnalyzers (Except.ok issues :: rest) = issues ++ runAnalyzers rest) ∧
    (∀ (pr : ParseResult) (outcomes : List AnalyzerOutcome),
      (analyzeFile pr outcomes).issues = runAnalyzers outcomes) := by
  refine ⟨fun pre post e => ?_, runAnalyzers_cons_ok, fun pr outs => rfl⟩
  rw [runAnalyzers_append, runAnalyzers_cons_err]

/-- C8: every finding the Security Analyzer produces, on any input
tree, carries a present, non-empty vulnerability name, CWE identifier
and OWASP bucket. -/
theorem c8_security_findings_carry_taxonomy :
    ∀ (ast : ASTNode) (filePath sourceCode : String),
    (securityAnalyze ast filePath sourceCode).all securityTagged = true :=
  fun ast fp src => traverse_sec_tagged fp src ast none [] [] rfl

/-- C9: the claim states averageComplexity is the mean of the per-file
complexity metrics. The code computes 0 for every project: the file
entries pushed by analyzeDirectory are FileInfo records without a
metrics field, so each reduce step adds undefined, producing NaN, and
the or-zero guard resets the accumulator. -/
theorem c9_average_complexity_always_zero :
    ∀ result : AnalysisResult,
      (calculateProjectMetrics result).code.averageComplexity = 0 := by
  intro result
  unfold calculateProjectMetrics
  simp only
  by_cases hf : result.files.length > 0
  · rw [if_pos hf, projectFold_zero]
    simp
  · rw [if_neg hf]

/-- C10: an issue built by createIssue from a node without a source
span gets the default location line 0, column 0 at both ends, and
extractCodeSnippet returns the empty string for such a node. -/
theorem c10_createIssue_defaults_location :
    ∀ (ruleId message : String) (sev : Severity) (cat : IssueCategory)
      (t : String) (range : Option (Nat × Nat)) (value : Option JSVal)
      (lc tc : Option (List String)) (strs : List (String × String))
      (props : List Field) (fp : String) (cs : Option String)
      (sug : Option (List String)) (src : String) (ctx : Int),
    (createIssue ruleId message sev cat
        (ASTNode.mk t none range value lc tc strs props) fp cs sug).location =
      { start := { line := 0, column := 0 },
        stop := { line := 0, column := 0 } } ∧
    extractCodeSnippet src (ASTNode.mk t none range value lc tc strs props) ctx
      = "" :=
  fun _ _ _ _ _ _ _ _ _ _ _ _ _ _ _ _ => ⟨rfl, rfl⟩

end ASTra
